import Mathlib

/-!
Shallow embedding of `src/app.py` (a OneTrust controls report service):
a paginated collector (`fetch_controls`) and a PDF report renderer
(`generate_pdf`).  Python dictionaries coming from JSON are embedded as
structures holding exactly the fields the code reads; machine floats are
embedded as rationals (every concrete value in this development is exactly
representable, and IEEE rounding is outside the scope of the model).
-/

namespace App

/-- A JSON-derived Python value, as observed by the score-extraction code.
`int` and `float` are separate constructors because Python prints them
differently; `arr` stands for any non-scalar JSON value (array or object):
the code only ever compares such a value with `None`, `"0"`, `0` (all
unequal) and passes it to `float(...)`, which raises `TypeError` on it. -/
inductive PyVal where
  | none
  | str (s : String)
  | int (n : Int)
  | float (q : ℚ)
  | arr
deriving DecidableEq, Repr

/-- The two kinds of exception `float(val)` can raise in this code:
`ValueError` on an unparsable string, `TypeError` on a non-scalar value. -/
inductive FloatErr where
  | valueError
  | typeError
deriving DecidableEq, Repr

/-- Digits of a decimal literal folded into a natural number. -/
def digitsToNat (l : List Char) : Nat :=
  l.foldl (fun a c => a * 10 + (c.toNat - Char.toNat '0')) 0

/-- Unsigned part of Python `float(str)`: digits with an optional dot,
at least one digit overall.  (Exponents, `inf`/`nan` and digit
underscores accepted by CPython are outside the modelled fragment;
no value in this development uses them.) -/
def parseUnsignedFloat (l : List Char) : Option ℚ :=
  let intPart := l.takeWhile Char.isDigit
  let rest := l.dropWhile Char.isDigit
  match rest with
  | [] => if intPart.isEmpty then Option.none else Option.some ((digitsToNat intPart : ℚ))
  | c :: frac =>
    if c = '.' ∧ frac.all Char.isDigit ∧ ¬(intPart.isEmpty ∧ frac.isEmpty) then
      Option.some ((digitsToNat intPart : ℚ) + (digitsToNat frac : ℚ) / ((10 : ℚ) ^ frac.length))
    else Option.none

/-- Strip an optional leading sign, returning the sign and the rest. -/
def splitSign : List Char → Bool × List Char
  | '+' :: r => (false, r)
  | '-' :: r => (true, r)
  | l => (false, l)

/-- Strip leading and trailing whitespace from a character list. -/
def trimWs (l : List Char) : List Char :=
  (((l.dropWhile Char.isWhitespace).reverse).dropWhile Char.isWhitespace).reverse

/-- Model of Python `float(str)` on the modelled fragment: surrounding
whitespace stripped, optional sign, decimal digits with optional dot. -/
def parseFloat (s : String) : Option ℚ :=
  let t := trimWs s.toList
  let (neg, body) := splitSign t
  (parseUnsignedFloat body).map (fun q => if neg then -q else q)

/-- Model of Python `int(str)`: surrounding whitespace stripped, optional
sign, a nonempty run of decimal digits and nothing else. -/
def parseInt (s : String) : Option Int :=
  let t := trimWs s.toList
  let (neg, body) := splitSign t
  if body.isEmpty ∨ ¬body.all Char.isDigit then Option.none
  else Option.some (if neg then -(digitsToNat body : Int) else (digitsToNat body : Int))

/-- Model of `float(val)` applied to a score value (src/app.py line 125):
numbers convert exactly, strings go through the float grammar
(`ValueError` on failure), and non-scalar values raise `TypeError`. -/
def pyFloat : PyVal → Except FloatErr ℚ
  | PyVal.none => Except.error FloatErr.typeError
  | PyVal.str s =>
    match parseFloat s with
    | Option.some q => Except.ok q
    | Option.none => Except.error FloatErr.valueError
  | PyVal.int n => Except.ok (n : ℚ)
  | PyVal.float q => Except.ok q
  | PyVal.arr => Except.error FloatErr.typeError

/-- Decimal digits of `n` padded on the left with zeros to width `w`. -/
def padNat (w : Nat) (n : Nat) : String :=
  let s := toString n
  String.mk (List.replicate (w - s.length) '0') ++ s

/-- Model of Python `str(val)` as used in the `Value` body line
(src/app.py line 162).  Floats are printed via their exact short decimal
form when one exists (true of every float in this development); the
shortest-round-trip repr of general binary floats is outside the model. -/
def pyStr : PyVal → String
  | PyVal.none => "None"
  | PyVal.str s => s
  | PyVal.int n => toString n
  | PyVal.float q =>
    let sign := if q < 0 then "-" else ""
    let a := |q|
    match (List.range 40).find? (fun k => (a * (10 : ℚ) ^ k).den == 1) with
    | Option.some k =>
      if k = 0 then sign ++ toString a.num ++ ".0"
      else
        let m := (a * (10 : ℚ) ^ k).num.toNat
        sign ++ toString (m / 10 ^ k) ++ "." ++ padNat k (m % 10 ^ k)
    | Option.none => sign ++ toString a.num ++ "/" ++ toString a.den
  | PyVal.arr => "[]"

/-- Round a nonnegative rational to the nearest integer, ties to even
(the rounding used by CPython fixed-point formatting on exact values). -/
def roundHalfEven (q : ℚ) : Int :=
  let fl := ⌊q⌋
  let r := q - (fl : ℚ)
  if r < 1 / 2 then fl
  else if 1 / 2 < r then fl + 1
  else if fl % 2 = 0 then fl else fl + 1

/-- Model of the Python format `f"{x:.2f}"` on the modelled fragment. -/
def formatFix2 (q : ℚ) : String :=
  let sign := if q < 0 then "-" else ""
  let m := (roundHalfEven (|q| * 100)).toNat
  sign ++ toString (m / 100) ++ "." ++ padNat 2 (m % 100)

/-- The fields of the nested `control` object read by the code
(src/app.py lines 73, 109-111, 147-150).  `Option.none` marks an absent
key, so that the `dict.get` defaults apply. -/
structure Control where
  identifier : Option String
  name : Option String
  description : Option String
  orgGroupName : Option String
deriving DecidableEq, Repr

/-- One record of the API `content` list, holding exactly what
`generate_pdf` reads.  `control` is the nested object (absent or null
collapses to `Option.none`, matching `item.get("control") or {}`);
`primaryEntityName` is `(item.get("primaryEntity") or {}).get("name")`
collapsed through the same truthiness chain; `formula` is the list of
`value` fields of `(item.get("attributes") or {}).get
("AttributeFormulaValue.value1_2") or []`, an absent `value` key being
`PyVal.none` just as a null one; `effectivenessName` is the `name` key of
`item.get("effectivenessInfo") or {}`. -/
structure ControlItem where
  control : Option Control
  primaryEntityName : Option String
  formula : List PyVal
  effectivenessName : Option String
deriving DecidableEq, Repr

/-- The empty dictionary an absent `control` collapses to. -/
def emptyControl : Control :=
  { identifier := Option.none, name := Option.none,
    description := Option.none, orgGroupName := Option.none }

/-- The score value of a record: `formula[0].get("value") if formula else
None` (src/app.py lines 122 and 154). -/
def scoreVal (item : ControlItem) : PyVal :=
  (item.formula.head?).getD PyVal.none

/-- The test `val in (None, "0", 0)` of src/app.py lines 123 and 155.
Python `==` makes `0`, `0.0` and `False` all equal to `0`; booleans are
outside the modelled value universe, the two numeric shapes are kept. -/
def excludedScore (v : PyVal) : Bool :=
  v == PyVal.none || v == PyVal.str "0" || v == PyVal.int 0 || v == PyVal.float 0

/-- Model of Python `identifier.split(".")`: split at every dot, keeping
empty segments, one segment even for the empty string. -/
def splitDotAux : List Char → List Char → List String
  | [], cur => [String.mk cur.reverse]
  | c :: cs, cur =>
    if c = '.' then String.mk cur.reverse :: splitDotAux cs []
    else splitDotAux cs (c :: cur)

/-- Dot-splitting of a string, as `str.split(".")` does. -/
def splitDot (s : String) : List String :=
  splitDotAux s.toList []

/-- Model of `identifier_key` (src/app.py lines 72-80): fetch
`identifier` out of the nested `control` dictionary with default `""`,
split on dots, convert each segment with `int(...)`, a failing
conversion contributing `0`. -/
def identifier_key (item : ControlItem) : List Int :=
  let identifier := ((item.control.getD emptyControl).identifier).getD ""
  (splitDot identifier).map (fun part => (parseInt part).getD 0)

/-- The ordering `controls.sort(key=identifier_key)` sorts by: comparison
of keys, which for Python lists of ints is lexicographic. -/
def keyLe (a b : ControlItem) : Prop :=
  identifier_key a ≤ identifier_key b

instance : DecidableRel keyLe := fun a b =>
  inferInstanceAs (Decidable (identifier_key a ≤ identifier_key b))

instance : IsTotal ControlItem keyLe :=
  ⟨fun a b => le_total (identifier_key a) (identifier_key b)⟩

instance : IsTrans ControlItem keyLe :=
  ⟨fun _ _ _ hab hbc => le_trans hab hbc⟩

/-- Model of `controls.sort(key=identifier_key)` (src/app.py line 105).
Python `list.sort` is a stable sort by the key order; stable sorting by a
total preorder has a unique result, so insertion sort embeds it. -/
def sortControls (controls : List ControlItem) : List ControlItem :=
  controls.insertionSort keyLe

/-- Truthiness of an optional string field: present and nonempty. -/
def truthyStr : Option String → Option String
  | Option.some s => if s.isEmpty then Option.none else Option.some s
  | Option.none => Option.none

/-- Model of the company-name loop (src/app.py lines 107-116): walk the
(sorted) records; at the first record whose `control.orgGroupName` is
truthy take it and stop; otherwise, if that same record has a truthy
`primaryEntity.name`, take that and stop; otherwise move on; default
`"Unknown Company"`. -/
def companyName : List ControlItem → String
  | [] => "Unknown Company"
  | item :: rest =>
    match truthyStr (item.control.getD emptyControl).orgGroupName with
    | Option.some s => s
    | Option.none =>
      match truthyStr item.primaryEntityName with
      | Option.some s => s
      | Option.none => companyName rest

/-- Model of the score-collection loop (src/app.py lines 118-127): skip
values equal to `None`, `"0"` or `0`; convert the rest with `float`;
`ValueError` is swallowed (`except ValueError: pass`), `TypeError`
propagates and aborts the caller. -/
def collectValues : List ControlItem → Except FloatErr (List ℚ)
  | [] => Except.ok []
  | item :: rest =>
    let v := scoreVal item
    if excludedScore v then collectValues rest
    else
      match pyFloat v with
      | Except.ok q =>
        match collectValues rest with
        | Except.ok t => Except.ok (q :: t)
        | Except.error e => Except.error e
      | Except.error FloatErr.valueError => collectValues rest
      | Except.error FloatErr.typeError => Except.error FloatErr.typeError

/-! ### Model of `textwrap.wrap(text, 100)`

The stdlib wrapper normalizes whitespace to single spaces, splits the
text into alternating runs of spaces and non-spaces, fills each output
line greedily up to the width, breaks a chunk longer than the width at
the width, drops a whitespace chunk at a line break, and never emits an
empty line.  (The hyphen-aware chunking of `break_on_hyphens` is outside
the model; no text in this development contains a letter-adjacent
hyphen.) -/

/-- Whitespace normalization of `textwrap`: every whitespace character
becomes a plain space before chunking. -/
def normalizeWs (s : String) : List Char :=
  s.toList.map (fun c => if c.isWhitespace then ' ' else c)

/-- Split a character list into maximal runs of spaces / non-spaces. -/
def splitRuns : List Char → List (List Char)
  | [] => []
  | c :: cs =>
    match splitRuns cs with
    | [] => [[c]]
    | [] :: rest => [c] :: [] :: rest
    | (d :: ds) :: rest =>
      if (c == ' ') == (d == ' ') then (c :: d :: ds) :: rest
      else [c] :: (d :: ds) :: rest

/-- Whether a chunk is a whitespace run (the empty chunk strips to
nothing, as in the Python test `chunk.strip() == ""`). -/
def isSpaceRun : List Char → Bool
  | [] => true
  | c :: _ => c == ' '

/-- Greedily take chunks while the running length stays within the
width; returns the taken chunks, the resulting length and the rest. -/
def fillLine (w : Nat) : List (List Char) → Nat → List (List Char) × Nat × List (List Char)
  | [], len => ([], len, [])
  | c :: cs, len =>
    if len + c.length ≤ w then
      let (tk, len2, rest) := fillLine w cs (len + c.length)
      (c :: tk, len2, rest)
    else ([], len, c :: cs)

/-- The fuelled wrapping loop; one fuel unit per emitted-or-skipped
chunk step, always called with enough fuel to finish. -/
def wrapLoop (w : Nat) : Nat → List (List Char) → List String → List String
  | 0, _, lines => lines.reverse
  | _ + 1, [], lines => lines.reverse
  | fuel + 1, c :: cs, lines =>
    if isSpaceRun c ∧ ¬lines.isEmpty then wrapLoop w fuel cs lines
    else
      let (cur, len, rest) := fillLine w (c :: cs) 0
      let (cur2, rest2) :=
        match rest with
        | r :: rs =>
          if w < r.length then
            let spaceLeft := w - len
            (cur ++ [r.take spaceLeft], r.drop spaceLeft :: rs)
          else (cur, r :: rs)
        | [] => (cur, [])
      let cur3 :=
        match cur2.getLast? with
        | Option.some l => if isSpaceRun l then cur2.dropLast else cur2
        | Option.none => cur2
      let lines2 := if cur3.isEmpty then lines else (String.mk cur3.flatten) :: lines
      wrapLoop w fuel rest2 lines2

/-- Model of `textwrap.wrap(text, 100)` (src/app.py line 97). -/
def wrap100 (s : String) : List String :=
  wrapLoop 100 (2 * s.length + 2) (splitRuns (normalizeWs s)) []

/-! ### Model of the reportlab canvas as a trace of drawing operations

`generate_pdf` only ever calls `setFont`, `drawString` and `showPage` on
the canvas; the document content is embedded as the sequence of those
calls.  Letter pages are 612 x 792 points, the margins are 40 points and
the body line height is 14 points (src/app.py lines 89-93). -/

/-- One canvas call issued by `generate_pdf`. -/
inductive CanvasOp where
  | setFont (font : String) (size : ℚ)
  | drawString (x y : ℚ) (text : String)
  | showPage
deriving DecidableEq, Repr

/-- The mutable state closed over by `draw_wrapped`: the trace of canvas
calls so far and the vertical cursor `y`. -/
structure RenderSt where
  ops : List CanvasOp
  y : ℚ
deriving DecidableEq, Repr

/-- Drawing one physical (already wrapped) line (src/app.py lines
98-103): if the cursor has reached the bottom margin, finish the page,
reset the font to `Helvetica 10` and the cursor to the top margin; then
draw the line at the left margin and move the cursor down one line. -/
def drawPhysLine (st : RenderSt) (line : String) : RenderSt :=
  let st2 :=
    if st.y ≤ 40 then
      { ops := st.ops ++ [CanvasOp.showPage, CanvasOp.setFont "Helvetica" 10], y := (752 : ℚ) }
    else st
  { ops := st2.ops ++ [CanvasOp.drawString 40 st2.y line], y := st2.y - 14 }

/-- Model of the closure `draw_wrapped` (src/app.py lines 95-103). -/
def draw_wrapped (text : String) (st : RenderSt) : RenderSt :=
  (wrap100 text).foldl drawPhysLine st

/-- The separator rule below every body block: 90 dashes. -/
def sepLine : String :=
  String.mk (List.replicate 90 '-')

/-- The five logical body lines of one record plus the separator, in the
order drawn by src/app.py lines 146-164. -/
def blockLines (item : ControlItem) : List String :=
  let control := item.control.getD emptyControl
  let identifier := control.identifier.getD "N/A"
  let name := control.name.getD "N/A"
  let description := control.description.getD "N/A"
  let raw := scoreVal item
  let value := if excludedScore raw then "N/A" else pyStr raw
  let eff := item.effectivenessName.getD "N/A"
  ["Identifier    : " ++ identifier,
   "Name          : " ++ name,
   "Description   : " ++ description,
   "Value         : " ++ value,
   "Effectiveness : " ++ eff,
   sepLine]

/-- One body block: the six logical lines pushed through `draw_wrapped`. -/
def drawBlock (st : RenderSt) (item : ControlItem) : RenderSt :=
  (blockLines item).foldl (fun s t => draw_wrapped t s) st

/-- The summary line text (src/app.py lines 136-140). -/
def avgLineText : Option ℚ → String
  | Option.some a => "Average Score of Applicable Controls: " ++ formatFix2 a
  | Option.none => "Average Score of Applicable Controls: N/A"

/-- The fixed five-operation prelude of the document: title in bold 14
at the top margin, summary line in bold 12 twenty points lower, then the
switch to the body font (src/app.py lines 131-144). -/
def headerOps (company avgText : String) : List CanvasOp :=
  [CanvasOp.setFont "Helvetica-Bold" 14,
   CanvasOp.drawString 40 752 ("OneTrust Controls Summary - " ++ company),
   CanvasOp.setFont "Helvetica-Bold" 12,
   CanvasOp.drawString 40 732 avgText,
   CanvasOp.setFont "Helvetica" 10]

/-- Model of `generate_pdf` (src/app.py lines 85-168).  The first
component is the canvas trace of the rendered document, or the
`TypeError` that `float(val)` raises on a non-scalar score value (the
only exception the function can raise; it escapes before anything is
drawn).  The second component is the final state of the caller's list:
the function sorts its argument in place before anything else, so the
caller observes the sorted list even on the error path. -/
def generate_pdf (controls : List ControlItem) :
    Except FloatErr (List CanvasOp) × List ControlItem :=
  let sorted := sortControls controls
  let company := companyName sorted
  match collectValues sorted with
  | Except.error e => (Except.error e, sorted)
  | Except.ok values =>
    let avg : Option ℚ :=
      if values.isEmpty then Option.none
      else Option.some (values.sum / (values.length : ℚ))
    let final := sorted.foldl drawBlock { ops := headerOps company (avgLineText avg), y := (702 : ℚ) }
    (Except.ok final.ops, sorted)

/-! ### Model of `fetch_controls`

The loop issues one POST per page; the environment is embedded as the
list of responses the server would return to the successive requests
(element `i` answers the request with `page=i`).  `raise_for_status`
raises exactly on a 4xx or 5xx status.  If the loop would request more
pages than the environment provides, the model returns
`outOfResponses` (the real loop would keep requesting). -/

/-- One page response: HTTP status, the `content` list and the
`totalPages` field (`Option.none` when the key is absent, in which case
`data.get("totalPages", 1)` yields 1). -/
structure PageResponse where
  status : Nat
  content : List ControlItem
  totalPages : Option Int
deriving DecidableEq, Repr

/-- The statuses on which `response.raise_for_status()` raises. -/
def badStatus (s : Nat) : Prop :=
  400 ≤ s ∧ s < 600

instance (s : Nat) : Decidable (badStatus s) :=
  inferInstanceAs (Decidable (400 ≤ s ∧ s < 600))

/-- Outcome of a fetch run. -/
inductive FetchOutcome where
  | success (records : List ControlItem)
  | upstreamError (status : Nat)
  | outOfResponses
deriving DecidableEq, Repr

/-- The body of the `while True` loop of src/app.py lines 38-65,
carrying the page counter, the accumulated records and the number of
requests issued so far. -/
def fetchGo : List PageResponse → Int → List ControlItem → Nat → FetchOutcome × Nat
  | [], _, _, n => (FetchOutcome.outOfResponses, n)
  | r :: rest, page, acc, n =>
    if badStatus r.status then (FetchOutcome.upstreamError r.status, n + 1)
    else
      let acc2 := acc ++ r.content
      let total := r.totalPages.getD 1
      if page + 1 ≥ total then (FetchOutcome.success acc2, n + 1)
      else fetchGo rest (page + 1) acc2 (n + 1)

/-- Model of `fetch_controls` (src/app.py lines 33-67): returns the
outcome together with the number of page requests issued. -/
def fetch_controls (resps : List PageResponse) : FetchOutcome × Nat :=
  fetchGo resps 0 [] 0

instance : Inhabited PageResponse :=
  ⟨{ status := 200, content := [], totalPages := Option.none }⟩

/-! ### Concrete records used by the examples below -/

/-- A record with the given identifier, company hints and formula list,
all other fields absent. -/
def mkItem (identifier org primary : Option String) (formula : List PyVal) : ControlItem :=
  { control := Option.some
      { identifier := identifier, name := Option.none,
        description := Option.none, orgGroupName := org },
    primaryEntityName := primary,
    formula := formula,
    effectivenessName := Option.none }

/-- A record whose only company hint is `primaryEntity.name`. -/
def itemAcme : ControlItem :=
  mkItem (Option.some "1") Option.none (Option.some "Acme Corp") []

/-- A later record that does have `orgGroupName`. -/
def itemGroup : ControlItem :=
  mkItem (Option.some "2") (Option.some "Group Inc") Option.none []

/-- A record whose score value is the unparsable string `"abc"`. -/
def itemAbc : ControlItem :=
  mkItem (Option.some "1") Option.none Option.none [PyVal.str "abc"]

/-- A record whose score value is a non-scalar JSON value (for example
the empty array). -/
def itemArr : ControlItem :=
  mkItem (Option.some "1") Option.none Option.none [PyVal.arr]

/-- The five-record example of the specification, with scores
`[0, "0", None, "5", "15"]` in identifier order. -/
def fiveScoreItems : List ControlItem :=
  [mkItem (Option.some "1") Option.none Option.none [PyVal.int 0],
   mkItem (Option.some "2") Option.none Option.none [PyVal.str "0"],
   mkItem (Option.some "3") Option.none Option.none [PyVal.none],
   mkItem (Option.some "4") Option.none Option.none [PyVal.str "5"],
   mkItem (Option.some "5") Option.none Option.none [PyVal.str "15"]]

/-- A record with identifier `3.2`. -/
def item32 : ControlItem :=
  mkItem (Option.some "3.2") Option.none Option.none []

/-- A record with identifier `3.10`. -/
def item310 : ControlItem :=
  mkItem (Option.some "3.10") Option.none Option.none []

/-! ### Sorting lemmas -/

/-- Inserting preserves, for every key value, the sublist of records
carrying that key: the step case of sort stability. -/
theorem filter_key_orderedInsert (k : List Int) (x : ControlItem) (s : List ControlItem) :
    (s.orderedInsert keyLe x).filter (fun i => identifier_key i == k)
      = ((x :: s).filter (fun i => identifier_key i == k)) := by
  have hsplit := List.takeWhile_append_dropWhile (p := fun b => decide ¬keyLe x b) (l := s)
  rw [List.orderedInsert_eq_take_drop]
  by_cases hx : identifier_key x = k
  · have htake : ((s.takeWhile fun b => decide ¬keyLe x b).filter
        (fun i => identifier_key i == k)) = [] := by
      rw [List.filter_eq_nil_iff]
      intro a ha
      have h2 : ¬keyLe x a := by
        have := List.mem_takeWhile_imp ha
        simpa using this
      simp only [beq_iff_eq]
      intro hk
      exact h2 (show identifier_key x ≤ identifier_key a from le_of_eq (hx.trans hk.symm))
    have hdrop : List.filter (fun i => identifier_key i == k) s
        = List.filter (fun i => identifier_key i == k)
            (s.dropWhile fun b => decide ¬keyLe x b) := by
      conv_lhs => rw [← hsplit]
      rw [List.filter_append, htake, List.nil_append]
    rw [List.filter_append, htake, List.nil_append,
        List.filter_cons_of_pos (by simp [hx]), List.filter_cons_of_pos (by simp [hx]), hdrop]
  · rw [List.filter_append, List.filter_cons_of_neg (by simp [hx]),
        List.filter_cons_of_neg (by simp [hx]), ← List.filter_append, hsplit]

/-- Sort stability: sorting preserves, for every key value, the sublist
of records carrying that key (so equal keys keep their input order). -/
theorem filter_key_sortControls (k : List Int) (l : List ControlItem) :
    (sortControls l).filter (fun i => identifier_key i == k)
      = l.filter (fun i => identifier_key i == k) := by
  induction l with
  | nil => rfl
  | cons a l ih =>
    have hstep : sortControls (a :: l) = (sortControls l).orderedInsert keyLe a := rfl
    rw [hstep, filter_key_orderedInsert, List.filter_cons, List.filter_cons, ih]

/-- C4: rendering sorts the records stably and ascending by the
dot-split numeric key of `identifier` (non-numeric or missing segments
counting 0): the sorted list is ordered under the key, is a permutation
of the input, and for every key value the records carrying that key stay
in input order; the key puts identifier `3.2` strictly before `3.10`,
while plain string comparison orders `3.10` first. -/
theorem sort_by_numeric_identifier_key (l : List ControlItem) (k : List Int) :
    List.Sorted keyLe (sortControls l)
    ∧ (sortControls l).Perm l
    ∧ (sortControls l).filter (fun i => identifier_key i == k)
        = l.filter (fun i => identifier_key i == k)
    ∧ identifier_key item32 < identifier_key item310
    ∧ "3.10".toList < "3.2".toList :=
  ⟨List.sorted_insertionSort keyLe l,
   List.perm_insertionSort keyLe l,
   filter_key_sortControls k l,
   by decide,
   by decide⟩

/-- C10: `generate_pdf` sorts its argument list in place before doing
anything else, so after every call (on the success and on the error path
alike) the caller's list is the key-sorted permutation of what it
passed in. -/
theorem generate_pdf_sorts_argument_in_place (controls : List ControlItem) :
    (generate_pdf controls).2 = sortControls controls
    ∧ ((generate_pdf controls).2).Perm controls
    ∧ List.Sorted keyLe ((generate_pdf controls).2) := by
  have h2 : (generate_pdf controls).2 = sortControls controls := by
    simp only [generate_pdf]
    split <;> rfl
  exact ⟨h2, h2 ▸ List.perm_insertionSort keyLe controls,
    h2 ▸ List.sorted_insertionSort keyLe controls⟩

/-! ### Decomposition of the rendered trace -/

/-- The operations one physical line contributes, given the cursor. -/
def physOps (y : ℚ) (line : String) : List CanvasOp :=
  if y ≤ 40 then
    [CanvasOp.showPage, CanvasOp.setFont "Helvetica" 10, CanvasOp.drawString 40 752 line]
  else [CanvasOp.drawString 40 y line]

/-- The cursor position after one physical line. -/
def physY (y : ℚ) : ℚ :=
  if y ≤ 40 then 752 - 14 else y - 14

theorem drawPhysLine_eq (st : RenderSt) (line : String) :
    drawPhysLine st line = { ops := st.ops ++ physOps st.y line, y := physY st.y } := by
  unfold drawPhysLine physOps physY
  split <;> simp

/-- The text drawn by an operation, if any. -/
def textOf : CanvasOp → Option String
  | CanvasOp.drawString _ _ t => Option.some t
  | _ => Option.none

/-- The sequence of texts drawn by a trace. -/
def drawnTexts (ops : List CanvasOp) : List String :=
  ops.filterMap textOf

theorem drawnTexts_append (a b : List CanvasOp) :
    drawnTexts (a ++ b) = drawnTexts a ++ drawnTexts b := by
  simp [drawnTexts]

theorem drawnTexts_physOps (y : ℚ) (line : String) :
    drawnTexts (physOps y line) = [line] := by
  unfold physOps
  split <;> simp [drawnTexts, textOf]

theorem physOps_y_gt (y : ℚ) (line : String) :
    ∀ x z t, CanvasOp.drawString x z t ∈ physOps y line → 40 < z := by
  intro x z t h
  unfold physOps at h
  by_cases hy : y ≤ 40
  · rw [if_pos hy] at h
    simp only [List.mem_cons, List.not_mem_nil, or_false] at h
    rcases h with h | h | h
    · cases h
    · cases h
    · injection h with hx hz ht
      rw [hz]
      norm_num
  · rw [if_neg hy] at h
    simp only [List.mem_cons, List.not_mem_nil, or_false] at h
    injection h with hx hz ht
    rw [hz]
    exact lt_of_not_le hy

/-- Folding physical lines only appends to the trace; the appended part
draws exactly those lines, all strictly above the bottom margin. -/
theorem foldl_phys_decomp (lines : List String) (st : RenderSt) :
    ∃ suf, (lines.foldl drawPhysLine st).ops = st.ops ++ suf
      ∧ drawnTexts suf = lines
      ∧ ∀ x z t, CanvasOp.drawString x z t ∈ suf → 40 < z := by
  induction lines generalizing st with
  | nil => exact ⟨[], by simp, rfl, by simp⟩
  | cons l ls ih =>
    obtain ⟨suf, h1, h2, h3⟩ := ih (drawPhysLine st l)
    refine ⟨physOps st.y l ++ suf, ?_, ?_, ?_⟩
    · rw [List.foldl_cons, h1, drawPhysLine_eq]
      simp
    · rw [drawnTexts_append, drawnTexts_physOps, h2]
      rfl
    · intro x z t hm
      rcases List.mem_append.mp hm with hm | hm
      · exact physOps_y_gt st.y l x z t hm
      · exact h3 x z t hm

/-- Folding `draw_wrapped` over logical lines appends the wrapped lines
of each text, in order, all drawn strictly above the bottom margin. -/
theorem foldl_wrapped_decomp (texts : List String) (st : RenderSt) :
    ∃ suf, ((texts.foldl (fun s t => draw_wrapped t s) st).ops = st.ops ++ suf)
      ∧ drawnTexts suf = texts.flatMap wrap100
      ∧ ∀ x z t, CanvasOp.drawString x z t ∈ suf → 40 < z := by
  induction texts generalizing st with
  | nil => exact ⟨[], by simp, rfl, by simp⟩
  | cons l ls ih =>
    obtain ⟨suf1, g1, g2, g3⟩ := foldl_phys_decomp (wrap100 l) st
    obtain ⟨suf2, h1, h2, h3⟩ := ih (draw_wrapped l st)
    refine ⟨suf1 ++ suf2, ?_, ?_, ?_⟩
    · rw [List.foldl_cons, h1]
      show (draw_wrapped l st).ops ++ suf2 = st.ops ++ (suf1 ++ suf2)
      rw [show (draw_wrapped l st).ops = ((wrap100 l).foldl drawPhysLine st).ops from rfl, g1]
      simp
    · rw [drawnTexts_append, g2, h2, List.flatMap_cons]
    · intro x z t hm
      rcases List.mem_append.mp hm with hm | hm
      · exact g3 x z t hm
      · exact h3 x z t hm

/-- Folding body blocks appends, per record, the wrapped block lines. -/
theorem foldl_block_decomp (items : List ControlItem) (st : RenderSt) :
    ∃ suf, ((items.foldl drawBlock st).ops = st.ops ++ suf)
      ∧ drawnTexts suf = items.flatMap (fun i => (blockLines i).flatMap wrap100)
      ∧ ∀ x z t, CanvasOp.drawString x z t ∈ suf → 40 < z := by
  induction items generalizing st with
  | nil => exact ⟨[], by simp, rfl, by simp⟩
  | cons i is ih =>
    obtain ⟨suf1, g1, g2, g3⟩ := foldl_wrapped_decomp (blockLines i) st
    obtain ⟨suf2, h1, h2, h3⟩ := ih (drawBlock st i)
    refine ⟨suf1 ++ suf2, ?_, ?_, ?_⟩
    · rw [List.foldl_cons, h1]
      show (drawBlock st i).ops ++ suf2 = st.ops ++ (suf1 ++ suf2)
      rw [show (drawBlock st i).ops
            = ((blockLines i).foldl (fun s t => draw_wrapped t s) st).ops from rfl, g1]
      simp
    · rw [drawnTexts_append, g2, h2, List.flatMap_cons]
    · intro x z t hm
      rcases List.mem_append.mp hm with hm | hm
      · exact g3 x z t hm
      · exact h3 x z t hm

/-- Shape of every successful render: the five header operations, then a
body suffix drawing exactly the wrapped block lines of the sorted
records, all strictly above the bottom margin. -/
theorem generate_pdf_ok_decomp (controls : List ControlItem) (ops : List CanvasOp)
    (h : (generate_pdf controls).1 = Except.ok ops) :
    ∃ vs suf, collectValues (sortControls controls) = Except.ok vs
      ∧ ops = headerOps (companyName (sortControls controls))
          (avgLineText (if vs.isEmpty then Option.none
            else Option.some (vs.sum / (vs.length : ℚ)))) ++ suf
      ∧ drawnTexts suf
          = (sortControls controls).flatMap (fun i => (blockLines i).flatMap wrap100)
      ∧ ∀ x z t, CanvasOp.drawString x z t ∈ suf → 40 < z := by
  simp only [generate_pdf] at h
  cases hv : collectValues (sortControls controls) with
  | error e =>
    rw [hv] at h
    simp at h
  | ok vs =>
    rw [hv] at h
    simp only at h
    obtain ⟨suf, h1, h2, h3⟩ := foldl_block_decomp (sortControls controls)
      { ops := headerOps (companyName (sortControls controls))
          (avgLineText (if vs.isEmpty then Option.none
            else Option.some (vs.sum / (vs.length : ℚ)))), y := (702 : ℚ) }
    refine ⟨vs, suf, rfl, ?_, h2, h3⟩
    have h4 : Except.ok ((List.foldl drawBlock
        { ops := headerOps (companyName (sortControls controls))
            (avgLineText (if vs.isEmpty then Option.none
              else Option.some (vs.sum / (vs.length : ℚ)))), y := (702 : ℚ) }
        (sortControls controls)).ops) = Except.ok ops := h
    have h5 := Except.ok.inj h4
    rw [← h5, h1]

/-! ### C1: company-name resolution -/

/-- Whether a record carries either company-name hint. -/
def hasHint (i : ControlItem) : Bool :=
  (truthyStr (i.control.getD emptyControl).orgGroupName).isSome
    || (truthyStr i.primaryEntityName).isSome

/-- The company-name rule as the specification words it (for comparison
with the code): first scan all records for a non-empty `orgGroupName`;
only if none exists anywhere, scan all records for a non-empty
`primaryEntity.name`; else the placeholder. -/
def companyNameSpec (items : List ControlItem) : String :=
  match (items.filterMap
      (fun i => truthyStr (i.control.getD emptyControl).orgGroupName)).head? with
  | Option.some s => s
  | Option.none =>
    match (items.filterMap (fun i => truthyStr i.primaryEntityName)).head? with
    | Option.some s => s
    | Option.none => "Unknown Company"

set_option maxRecDepth 100000 in
/-- C1 (counterexample): with a first record carrying only
`primaryEntity.name = "Acme Corp"` and a second record carrying
`orgGroupName = "Group Inc"`, the claimed rule yields `"Group Inc"`, but
the rendered title shows `"Acme Corp"`: the loop stops at the first
record that has either hint and never sees the later `orgGroupName`. -/
theorem company_name_counterexample :
    companyNameSpec (sortControls [itemAcme, itemGroup]) = "Group Inc"
    ∧ companyName (sortControls [itemAcme, itemGroup]) = "Acme Corp"
    ∧ (((generate_pdf [itemAcme, itemGroup]).1.toOption).getD [])[1]?
        = Option.some
            (CanvasOp.drawString 40 752 "OneTrust Controls Summary - Acme Corp")
    ∧ ("Acme Corp" : String) ≠ "Group Inc" := by
  exact ⟨rfl, rfl, by with_unfolding_all rfl, by decide⟩

/-- C1 (amended): the records are scanned in sorted order and the
company name comes from the first record that has either hint, that
record's non-empty `orgGroupName` preferred over its non-empty
`primaryEntity.name`; only when no record has either hint is
`"Unknown Company"` used; the title line of every successful render
shows the name so resolved from the sorted records. -/
theorem company_name_resolution (items controls : List ControlItem) (ops : List CanvasOp) :
    (companyName items =
      match items.find? hasHint with
      | Option.some i => (truthyStr (i.control.getD emptyControl).orgGroupName).getD
          ((truthyStr i.primaryEntityName).getD "Unknown Company")
      | Option.none => "Unknown Company")
    ∧ ((generate_pdf controls).1 = Except.ok ops →
        ops[1]? = Option.some (CanvasOp.drawString 40 752
          ("OneTrust Controls Summary - " ++ companyName (sortControls controls)))) := by
  constructor
  · induction items with
    | nil => rfl
    | cons i rest ih =>
      show (match truthyStr (i.control.getD emptyControl).orgGroupName with
        | Option.some s => s
        | Option.none =>
          match truthyStr i.primaryEntityName with
          | Option.some s => s
          | Option.none => companyName rest) = _
      cases horg : truthyStr (i.control.getD emptyControl).orgGroupName with
      | some s =>
        have hh : hasHint i = true := by simp [hasHint, horg]
        rw [List.find?_cons_of_pos _ hh]
        simp [horg]
      | none =>
        cases hpri : truthyStr i.primaryEntityName with
        | some s =>
          have hh : hasHint i = true := by simp [hasHint, hpri]
          rw [List.find?_cons_of_pos _ hh]
          simp [horg, hpri]
        | none =>
          have hh : ¬hasHint i = true := by simp [hasHint, horg, hpri]
          rw [List.find?_cons_of_neg _ hh]
          exact ih
  · intro h
    obtain ⟨vs, suf, hv, hops, hsuf, hy⟩ := generate_pdf_ok_decomp controls ops h
    rw [hops]
    rfl

/-- Witness instantiating the amended company-name theorem on a
concrete render. -/
theorem company_name_resolution_witness :
    (((generate_pdf [itemAcme, itemGroup]).1.toOption).getD [])[1]?
      = Option.some (CanvasOp.drawString 40 752
          ("OneTrust Controls Summary - " ++ companyName (sortControls [itemAcme, itemGroup]))) :=
  (company_name_resolution [itemAcme, itemGroup] [itemAcme, itemGroup]
      (((generate_pdf [itemAcme, itemGroup]).1.toOption).getD [])).2
    (by with_unfolding_all rfl)

/-! ### C2 and C6: score aggregation -/

/-- The contribution of one record to the `values` list of src/app.py
lines 118-127: skipped when the value is `None`, `"0"` or `0`, and also
when the conversion to float fails. -/
def includedScore (item : ControlItem) : Option ℚ :=
  let v := scoreVal item
  if excludedScore v then Option.none
  else (pyFloat v).toOption

/-- Unfolding equation of the score loop at a cons cell. -/
theorem collectValues_cons (i : ControlItem) (rest : List ControlItem) :
    collectValues (i :: rest)
      = (if excludedScore (scoreVal i) then collectValues rest
        else
          match pyFloat (scoreVal i) with
          | Except.ok q =>
            match collectValues rest with
            | Except.ok t => Except.ok (q :: t)
            | Except.error e => Except.error e
          | Except.error FloatErr.valueError => collectValues rest
          | Except.error FloatErr.typeError => Except.error FloatErr.typeError) := rfl

theorem includedScore_of_excluded (i : ControlItem)
    (h : excludedScore (scoreVal i) = true) : includedScore i = Option.none := by
  simp [includedScore, h]

theorem includedScore_of_not_excluded (i : ControlItem)
    (h : excludedScore (scoreVal i) = false) :
    includedScore i = (pyFloat (scoreVal i)).toOption := by
  simp [includedScore, h]

/-- When the score loop completes without an exception, the collected
values are exactly the per-record included scores, in order. -/
theorem collectValues_ok_filterMap (items : List ControlItem) (vs : List ℚ)
    (h : collectValues items = Except.ok vs) :
    vs = items.filterMap includedScore := by
  induction items generalizing vs with
  | nil =>
    simp only [collectValues] at h
    cases h
    rfl
  | cons i rest ih =>
    rw [List.filterMap_cons]
    cases hex : excludedScore (scoreVal i) with
    | true =>
      have hcc : collectValues (i :: rest) = collectValues rest := by
        rw [collectValues_cons, hex]
        rfl
      rw [hcc] at h
      rw [includedScore_of_excluded i hex]
      exact ih vs h
    | false =>
      cases hf : pyFloat (scoreVal i) with
      | ok q =>
        have hcc : collectValues (i :: rest)
            = (match collectValues rest with
               | Except.ok t => Except.ok (q :: t)
               | Except.error e => Except.error e) := by
          rw [collectValues_cons, hex, hf]
          rfl
        cases hr : collectValues rest with
        | ok t =>
          have hcc2 : collectValues (i :: rest) = Except.ok (q :: t) := by
            rw [hcc, hr]
          rw [hcc2] at h
          cases h
          rw [includedScore_of_not_excluded i hex, hf]
          exact congrArg (q :: ·) (ih t hr)
        | error e =>
          have hcc2 : collectValues (i :: rest) = Except.error e := by
            rw [hcc, hr]
          rw [hcc2] at h
          cases h
      | error e =>
        cases e with
        | valueError =>
          have hcc : collectValues (i :: rest) = collectValues rest := by
            rw [collectValues_cons, hex, hf]
            rfl
          rw [hcc] at h
          rw [includedScore_of_not_excluded i hex, hf]
          exact ih vs h
        | typeError =>
          have hcc : collectValues (i :: rest) = Except.error FloatErr.typeError := by
            rw [collectValues_cons, hex, hf]
            rfl
          rw [hcc] at h
          cases h

/-- C2 (counterexample): a record whose score value is the string
`"abc"` is present and not `None`, `"0"` or `0`, yet it contributes
nothing to the aggregation (the float conversion fails and the record
is skipped), so exclusion does not happen exactly on `{None, "0", 0}`. -/
theorem average_score_exactness_counterexample :
    scoreVal itemAbc = PyVal.str "abc"
    ∧ excludedScore (scoreVal itemAbc) = false
    ∧ collectValues [itemAbc] = Except.ok [] := by
  exact ⟨rfl, by decide, by with_unfolding_all rfl⟩

/-- C2 (amended): a record's score is excluded from aggregation exactly
when its value is `None`, the string `"0"`, the number `0`, or a value
whose float conversion fails (which is skipped silently); the summary
line shows the sum of included values divided by their count, formatted
with two decimals, and the `N/A` placeholder when nothing is included;
on the five scores `[0, "0", None, "5", "15"]` exactly `5` and `15` are
included and the line reads `10.00`. -/
theorem average_score_of_applicable_controls
    (items controls : List ControlItem) (ops : List CanvasOp) (vs : List ℚ) :
    (collectValues items = Except.ok vs → vs = items.filterMap includedScore)
    ∧ ((generate_pdf controls).1 = Except.ok ops →
        collectValues (sortControls controls) = Except.ok vs →
        ops[3]? = Option.some (CanvasOp.drawString 40 732 (avgLineText
          (if vs.isEmpty then Option.none else Option.some (vs.sum / (vs.length : ℚ))))))
    ∧ collectValues (sortControls fiveScoreItems) = Except.ok [5, 15]
    ∧ avgLineText (Option.some (((5 : ℚ) + 15) / 2))
        = "Average Score of Applicable Controls: 10.00" := by
  refine ⟨collectValues_ok_filterMap items vs, ?_, by with_unfolding_all rfl,
    by with_unfolding_all rfl⟩
  intro h hv
  obtain ⟨vs2, suf, hv2, hops, hsuf, hy⟩ := generate_pdf_ok_decomp controls ops h
  have hvv : vs2 = vs := by
    rw [hv] at hv2
    exact (Except.ok.inj hv2).symm
  rw [hops, hvv]
  rfl

/-- Witness instantiating the amended average theorem on the five-score
example: the summary line of its render reads 10.00. -/
theorem average_score_witness :
    (((generate_pdf fiveScoreItems).1.toOption).getD [])[3]?
      = Option.some (CanvasOp.drawString 40 732 (avgLineText
          (if ([(5 : ℚ), 15] : List ℚ).isEmpty then Option.none
            else Option.some (([(5 : ℚ), 15] : List ℚ).sum / (([(5 : ℚ), 15] : List ℚ).length : ℚ))))) :=
  (average_score_of_applicable_controls fiveScoreItems fiveScoreItems
      (((generate_pdf fiveScoreItems).1.toOption).getD []) [5, 15]).2.1
    (by with_unfolding_all rfl) (by with_unfolding_all rfl)

/-- C6 (counterexample): a record whose score value is a non-scalar
JSON value (an array) is neither missing nor `"0"` nor `0`, yet instead
of being skipped it makes the render abort with a `TypeError`, because
the loop only swallows `ValueError`. -/
theorem rendering_abort_counterexample :
    scoreVal itemArr = PyVal.arr
    ∧ excludedScore (scoreVal itemArr) = false
    ∧ (generate_pdf [itemArr]).1 = Except.error FloatErr.typeError := by
  exact ⟨rfl, by decide, by with_unfolding_all rfl⟩

/-- C6 (amended): as long as every present score value is a scalar
(missing, string or number), rendering always completes: values equal to
`None`, `"0"` or `0` and strings that fail float conversion are skipped
silently and never raise; only a non-scalar value (array/object) aborts
rendering. -/
theorem rendering_completes_on_scalar_scores (controls : List ControlItem)
    (hscalar : ∀ i ∈ controls, scoreVal i ≠ PyVal.arr) :
    (∃ ops, (generate_pdf controls).1 = Except.ok ops)
    ∧ collectValues controls = Except.ok (controls.filterMap includedScore) := by
  have key : ∀ (items : List ControlItem), (∀ i ∈ items, scoreVal i ≠ PyVal.arr) →
      collectValues items = Except.ok (items.filterMap includedScore) := by
    intro items
    induction items with
    | nil => intro _; rfl
    | cons i rest ih =>
      intro hs
      have hi := hs i (List.mem_cons_self i rest)
      have hrest := ih (fun j hj => hs j (List.mem_cons_of_mem i hj))
      rw [List.filterMap_cons]
      cases hex : excludedScore (scoreVal i) with
      | true =>
        have hcc : collectValues (i :: rest) = collectValues rest := by
          rw [collectValues_cons, hex]
          rfl
        rw [hcc, hrest, includedScore_of_excluded i hex]
      | false =>
        cases hf : pyFloat (scoreVal i) with
        | ok q =>
          have hcc : collectValues (i :: rest)
              = (match collectValues rest with
                 | Except.ok t => Except.ok (q :: t)
                 | Except.error e => Except.error e) := by
            rw [collectValues_cons, hex, hf]
            rfl
          rw [hcc, hrest, includedScore_of_not_excluded i hex, hf]
          rfl
        | error e =>
          cases e with
          | valueError =>
            have hcc : collectValues (i :: rest) = collectValues rest := by
              rw [collectValues_cons, hex, hf]
              rfl
            rw [hcc, hrest, includedScore_of_not_excluded i hex, hf]
            rfl
          | typeError =>
            exfalso
            cases hv : scoreVal i with
            | none => rw [hv] at hex; cases hex
            | str s =>
              rw [hv] at hf
              simp only [pyFloat] at hf
              cases hps : parseFloat s <;> rw [hps] at hf <;> cases hf
            | int n => rw [hv] at hf; cases hf
            | float q => rw [hv] at hf; cases hf
            | arr => exact hi hv
  have hsorted : collectValues (sortControls controls)
      = Except.ok ((sortControls controls).filterMap includedScore) :=
    key (sortControls controls)
      (fun i hi => hscalar i ((List.mem_insertionSort keyLe).mp hi))
  have hok : ∃ ops, (generate_pdf controls).1 = Except.ok ops := by
    simp only [generate_pdf, hsorted]
    exact ⟨_, rfl⟩
  exact ⟨hok, key controls hscalar⟩

/-- Witness instantiating the no-abort theorem on a record whose score
is the unparsable string `"abc"`: the conversion failure is skipped and
the render succeeds. -/
theorem rendering_completes_witness :
    (∃ ops, (generate_pdf [itemAbc]).1 = Except.ok ops)
    ∧ collectValues [itemAbc] = Except.ok ([itemAbc].filterMap includedScore) :=
  rendering_completes_on_scalar_scores [itemAbc] (by decide)

/-! ### C3 and C5: pagination termination and failure atomicity -/

/-- Unfolding equation of the fetch loop at a cons cell. -/
theorem fetchGo_cons (r : PageResponse) (rest : List PageResponse)
    (page : Int) (acc : List ControlItem) (n : Nat) :
    fetchGo (r :: rest) page acc n
      = (if badStatus r.status then (FetchOutcome.upstreamError r.status, n + 1)
        else if page + 1 ≥ r.totalPages.getD 1
          then (FetchOutcome.success (acc ++ r.content), n + 1)
          else fetchGo rest (page + 1) (acc ++ r.content) (n + 1)) := rfl

/-- Full characterization of a successful fetch run, for an arbitrary
starting page, accumulator and request count: the loop issued some
`k ≥ 1` further requests, all with good statuses, kept going exactly
while the incremented page counter stayed below the latest `totalPages`,
and returned the concatenated page contents. -/
theorem fetchGo_success_spec (resps : List PageResponse) :
    ∀ (page : Int) (acc : List ControlItem) (n0 : Nat)
      (recs : List ControlItem) (n : Nat),
      fetchGo resps page acc n0 = (FetchOutcome.success recs, n) →
      ∃ k, n = n0 + k ∧ 0 < k ∧ k ≤ resps.length
        ∧ recs = acc ++ ((resps.take k).map (fun r => r.content)).flatten
        ∧ (∀ i, i < k → ¬badStatus ((resps.getD i default).status))
        ∧ (∀ i, i + 1 < k →
            page + (i : Int) + 1 < ((resps.getD i default).totalPages.getD 1))
        ∧ page + (k : Int) ≥ ((resps.getD (k - 1) default).totalPages.getD 1) := by
  induction resps with
  | nil =>
    intro page acc n0 recs n h
    simp only [fetchGo] at h
    cases h
  | cons r rest ih =>
    intro page acc n0 recs n h
    rw [fetchGo_cons] at h
    by_cases hb : badStatus r.status
    · rw [if_pos hb] at h
      injection h with h1 h2
      cases h1
    · rw [if_neg hb] at h
      by_cases hstop : page + 1 ≥ r.totalPages.getD 1
      · rw [if_pos hstop] at h
        injection h with h1 h2
        injection h1 with h3
        refine ⟨1, h2.symm, Nat.one_pos, by simp, ?_, ?_, ?_, ?_⟩
        · rw [← h3]
          simp
        · intro i hi
          interval_cases i
          simpa using hb
        · intro i hi
          omega
        · simpa using hstop
      · rw [if_neg hstop] at h
        obtain ⟨k2, e1, e2, e3, e4, e5, e6, e7⟩ :=
          ih (page + 1) (acc ++ r.content) (n0 + 1) recs n h
        obtain ⟨m, rfl⟩ : ∃ m, k2 = m + 1 := ⟨k2 - 1, by omega⟩
        refine ⟨m + 2, by omega, by omega, by simpa using by omega, ?_, ?_, ?_, ?_⟩
        · rw [e4]
          simp [List.append_assoc]
        · intro i hi
          cases i with
          | zero => simpa using hb
          | succ j =>
            have := e5 j (by omega)
            simpa using this
        · intro i hi
          cases i with
          | zero =>
            have : page + 1 < r.totalPages.getD 1 := by omega
            simpa using this
          | succ j =>
            have := e6 j (by omega)
            push_cast at this ⊢
            simp only [List.getD_cons_succ]
            omega
        · have := e7
          push_cast at this ⊢
          simp only [List.getD_cons_succ] at this ⊢
          omega

/-- Mid-run characterization of a fetch that hits a bad status: if the
first `k` responses have good statuses and each keeps the loop going,
and response `k` has a bad status, the loop raises right there, after
exactly `k + 1` further requests, discarding the accumulator. -/
theorem fetchGo_error_spec (k : Nat) :
    ∀ (resps : List PageResponse) (page : Int) (acc : List ControlItem) (n0 : Nat),
      k < resps.length →
      badStatus ((resps.getD k default).status) →
      (∀ i, i < k → ¬badStatus ((resps.getD i default).status)) →
      (∀ i, i < k →
        page + (i : Int) + 1 < ((resps.getD i default).totalPages.getD 1)) →
      fetchGo resps page acc n0
        = (FetchOutcome.upstreamError ((resps.getD k default).status), n0 + k + 1) := by
  induction k with
  | zero =>
    intro resps page acc n0 hlen hbad hgood hcont
    cases resps with
    | nil => simp at hlen
    | cons r rest =>
      simp only [List.getD_cons_zero] at hbad ⊢
      rw [fetchGo_cons, if_pos hbad]
  | succ m ih =>
    intro resps page acc n0 hlen hbad hgood hcont
    cases resps with
    | nil => simp at hlen
    | cons r rest =>
      have h0good : ¬badStatus r.status := by simpa using hgood 0 (Nat.succ_pos m)
      have h0cont : page + 1 < r.totalPages.getD 1 := by
        simpa using hcont 0 (Nat.succ_pos m)
      rw [fetchGo_cons, if_neg h0good, if_neg (by omega)]
      have hrec := ih rest (page + 1) (acc ++ r.content) (n0 + 1)
        (by simpa using hlen)
        (by simpa using hbad)
        (fun i hi => by simpa using hgood (i + 1) (by omega))
        (fun i hi => by
          have := hcont (i + 1) (by omega)
          push_cast at this ⊢
          simp only [List.getD_cons_succ] at this
          omega)
      rw [hrec]
      simp only [List.getD_cons_succ]
      rw [show n0 + 1 + m + 1 = n0 + (m + 1) + 1 from by omega]

/-- C3: the collector keeps issuing page requests, with a page counter
starting at 0, exactly until the counter reaches or exceeds the
`totalPages` re-read from the latest response; with `totalPages = 3`
reported on each of the first three responses, exactly three requests
are issued and no fourth, whatever further responses the server would
have given. -/
theorem pagination_termination :
    (∀ (resps : List PageResponse) (recs : List ControlItem) (n : Nat),
      fetch_controls resps = (FetchOutcome.success recs, n) →
      0 < n ∧ n ≤ resps.length
        ∧ recs = ((resps.take n).map (fun r => r.content)).flatten
        ∧ (∀ i, i + 1 < n →
            (i : Int) + 1 < ((resps.getD i default).totalPages.getD 1))
        ∧ (n : Int) ≥ ((resps.getD (n - 1) default).totalPages.getD 1))
    ∧ (∀ (r0 r1 r2 : PageResponse) (rest : List PageResponse),
        ¬badStatus r0.status → ¬badStatus r1.status → ¬badStatus r2.status →
        r0.totalPages = Option.some 3 → r1.totalPages = Option.some 3 →
        r2.totalPages = Option.some 3 →
        fetch_controls (r0 :: r1 :: r2 :: rest)
          = (FetchOutcome.success (r0.content ++ r1.content ++ r2.content), 3)) := by
  constructor
  · intro resps recs n h
    obtain ⟨k, e1, e2, e3, e4, e5, e6, e7⟩ :=
      fetchGo_success_spec resps 0 [] 0 recs n h
    have hk : k = n := by omega
    subst hk
    refine ⟨e2, e3, by simpa using e4, ?_, ?_⟩
    · intro i hi
      have := e6 i hi
      omega
    · have := e7
      omega
  · intro r0 r1 r2 rest hb0 hb1 hb2 ht0 ht1 ht2
    show fetchGo (r0 :: r1 :: r2 :: rest) 0 [] 0 = _
    rw [fetchGo_cons, if_neg hb0, ht0, if_neg (by decide),
        fetchGo_cons, if_neg hb1, ht1, if_neg (by decide),
        fetchGo_cons, if_neg hb2, ht2, if_pos (by decide)]
    simp

/-- Witness instantiating the three-page termination theorem: a server
with four prepared responses, each reporting three pages, answers only
three requests. -/
theorem pagination_termination_witness :
    fetch_controls
        [{ status := 200, content := [], totalPages := Option.some 3 },
         { status := 200, content := [], totalPages := Option.some 3 },
         { status := 200, content := [], totalPages := Option.some 3 },
         { status := 200, content := [], totalPages := Option.some 3 }]
      = (FetchOutcome.success (([] : List ControlItem) ++ [] ++ []), 3) :=
  pagination_termination.2
    { status := 200, content := [], totalPages := Option.some 3 }
    { status := 200, content := [], totalPages := Option.some 3 }
    { status := 200, content := [], totalPages := Option.some 3 }
    [{ status := 200, content := [], totalPages := Option.some 3 }]
    (by decide) (by decide) (by decide) rfl rfl rfl

/-- C5: hitting any non-success page response makes the collector raise
an upstream error immediately — after exactly as many requests as it
took to reach the bad response — with no record output at all; dually, a
run that returns records never saw a non-success status on any issued
request. -/
theorem upstream_error_atomicity :
    (∀ (resps : List PageResponse) (k : Nat),
      k < resps.length →
      badStatus ((resps.getD k default).status) →
      (∀ i, i < k → ¬badStatus ((resps.getD i default).status)) →
      (∀ i, i < k →
        (i : Int) + 1 < ((resps.getD i default).totalPages.getD 1)) →
      fetch_controls resps
        = (FetchOutcome.upstreamError ((resps.getD k default).status), k + 1))
    ∧ (∀ (resps : List PageResponse) (recs : List ControlItem) (n : Nat),
        fetch_controls resps = (FetchOutcome.success recs, n) →
        ∀ i, i < n → ¬badStatus ((resps.getD i default).status)) := by
  constructor
  · intro resps k hlen hbad hgood hcont
    have := fetchGo_error_spec k resps 0 [] 0 hlen hbad hgood
      (fun i hi => by simpa using hcont i hi)
    simpa using this
  · intro resps recs n h i hi
    obtain ⟨k, e1, e2, e3, e4, e5, e6, e7⟩ :=
      fetchGo_success_spec resps 0 [] 0 recs n h
    exact e5 i (by omega)

/-- Witness instantiating the atomicity theorem: a good first page
reporting three pages followed by a 500 aborts after two requests with
an upstream error and no records. -/
theorem upstream_error_atomicity_witness :
    fetch_controls
        [{ status := 200, content := [], totalPages := Option.some 3 },
         { status := 500, content := [], totalPages := Option.some 3 }]
      = (FetchOutcome.upstreamError 500, 2) :=
  upstream_error_atomicity.1
    [{ status := 200, content := [], totalPages := Option.some 3 },
     { status := 500, content := [], totalPages := Option.some 3 }]
    1 (by decide) (by decide)
    (fun i hi => by interval_cases i; decide)
    (fun i hi => by interval_cases i; decide)


/-! ### C7 and C8: body-block structure and pagination of the layout -/

/-- C7: every successful render has exactly one body block per input
record — the body trace after the five header operations draws, per
sorted record, the wrapped lines of the five fields in fixed order
(`Identifier`, `Name`, `Description`, `Value` with placeholder when the
score is excluded or missing, `Effectiveness` with placeholder when
absent) followed by the 90-dash separator rule, and sorting does not
change the number of records. -/
theorem body_blocks_structure (controls : List ControlItem) (ops : List CanvasOp)
    (h : (generate_pdf controls).1 = Except.ok ops) :
    (sortControls controls).length = controls.length
    ∧ drawnTexts (ops.drop 5)
        = (sortControls controls).flatMap (fun i =>
            wrap100 ("Identifier    : "
                ++ ((i.control.getD emptyControl).identifier.getD "N/A"))
            ++ wrap100 ("Name          : "
                ++ ((i.control.getD emptyControl).name.getD "N/A"))
            ++ wrap100 ("Description   : "
                ++ ((i.control.getD emptyControl).description.getD "N/A"))
            ++ wrap100 ("Value         : "
                ++ (if excludedScore (scoreVal i) then "N/A" else pyStr (scoreVal i)))
            ++ wrap100 ("Effectiveness : " ++ (i.effectivenessName.getD "N/A"))
            ++ wrap100 sepLine) := by
  obtain ⟨vs, suf, hv, hops, hsuf, hy⟩ := generate_pdf_ok_decomp controls ops h
  refine ⟨List.length_insertionSort keyLe controls, ?_⟩
  have hdrop : ops.drop 5 = suf := by
    rw [hops, show (5 : Nat) = (headerOps (companyName (sortControls controls))
      (avgLineText (if vs.isEmpty then Option.none
        else Option.some (vs.sum / (vs.length : ℚ))))).length from rfl]
    exact List.drop_left _ _
  rw [hdrop, hsuf]
  have hfun : (fun i => (blockLines i).flatMap wrap100)
      = (fun i =>
          wrap100 ("Identifier    : "
              ++ ((i.control.getD emptyControl).identifier.getD "N/A"))
          ++ wrap100 ("Name          : "
              ++ ((i.control.getD emptyControl).name.getD "N/A"))
          ++ wrap100 ("Description   : "
              ++ ((i.control.getD emptyControl).description.getD "N/A"))
          ++ wrap100 ("Value         : "
              ++ (if excludedScore (scoreVal i) then "N/A" else pyStr (scoreVal i)))
          ++ wrap100 ("Effectiveness : " ++ (i.effectivenessName.getD "N/A"))
          ++ wrap100 sepLine) := by
    funext i
    simp [blockLines, List.append_assoc]
  rw [hfun]

/-- Witness instantiating the body-block theorem on a one-record render. -/
theorem body_blocks_structure_witness :
    (sortControls [itemAcme]).length = ([itemAcme] : List ControlItem).length :=
  (body_blocks_structure [itemAcme]
      (((generate_pdf [itemAcme]).1.toOption).getD [])
      (by with_unfolding_all rfl)).1

/-- A 60-character word: two of them never share a wrapped line. -/
def wordA : String :=
  String.mk (List.replicate 60 'a')

/-- A description wrapping to six physical lines of one word each. -/
def overflowDesc : String :=
  String.intercalate " " (List.replicate 6 wordA)

/-- A record with a long description, preceded by seven short records so
that its description reaches the bottom margin mid-way. -/
def overflowItem : ControlItem :=
  { control :=
      Option.some
        { identifier := Option.some "8"
          name := Option.some "n"
          description := Option.some overflowDesc
          orgGroupName := Option.none }
    primaryEntityName := Option.none
    formula := []
    effectivenessName := Option.none }

/-- Seven one-line-per-field records followed by the long one. -/
def overflowControls : List ControlItem :=
  [mkItem (Option.some "1") Option.none Option.none [],
   mkItem (Option.some "2") Option.none Option.none [],
   mkItem (Option.some "3") Option.none Option.none [],
   mkItem (Option.some "4") Option.none Option.none [],
   mkItem (Option.some "5") Option.none Option.none [],
   mkItem (Option.some "6") Option.none Option.none [],
   mkItem (Option.some "7") Option.none Option.none [],
   overflowItem]

/-- The canvas trace of the overflowing render. -/
def overflowOps : List CanvasOp :=
  ((generate_pdf overflowControls).1.toOption).getD []

set_option maxRecDepth 400000 in
/-- C8: before each physical body line the cursor is checked against the
bottom margin (`y <= 40`), and on overflow the page is finalized, the
font reset to the body font and the cursor reset to the top margin —
hence every drawn line sits strictly above the bottom margin, and a
block whose description wraps past the margin continues on the next
page at the top margin: in the concrete overflow trace the fourth
description line lands at `y = 44`, then come `showPage`, the font
reset, and the fifth description line at `y = 752`. -/
theorem page_break_per_physical_line :
    (∀ (controls : List ControlItem) (ops : List CanvasOp),
        (generate_pdf controls).1 = Except.ok ops →
        ∀ x y t, CanvasOp.drawString x y t ∈ ops → 40 < y)
    ∧ ((overflowOps.drop 52).take 4
        = [CanvasOp.drawString 40 44 wordA, CanvasOp.showPage,
           CanvasOp.setFont "Helvetica" 10, CanvasOp.drawString 40 752 wordA]) := by
  constructor
  · intro controls ops h x y t hm
    obtain ⟨vs, suf, hv, hops, hsuf, hy⟩ := generate_pdf_ok_decomp controls ops h
    rw [hops] at hm
    rcases List.mem_append.mp hm with hm | hm
    · simp only [headerOps, List.mem_cons, List.not_mem_nil, or_false] at hm
      rcases hm with hm | hm | hm | hm | hm
      · cases hm
      · injection hm with h1 h2 h3
        rw [h2]
        norm_num
      · cases hm
      · injection hm with h1 h2 h3
        rw [h2]
        norm_num
      · cases hm
    · exact hy x y t hm
  · with_unfolding_all rfl

set_option maxRecDepth 400000 in
/-- Witness instantiating the margin bound on the overflow trace: its
title line sits at 752, strictly above the margin. -/
theorem page_break_witness : (40 : ℚ) < 752 :=
  page_break_per_physical_line.1 overflowControls overflowOps
    (by with_unfolding_all rfl) 40 752
    "OneTrust Controls Summary - Unknown Company"
    (by
      have h1 : overflowOps.get? 1 = Option.some (CanvasOp.drawString 40 752
          "OneTrust Controls Summary - Unknown Company") := by
        with_unfolding_all rfl
      exact List.get?_mem h1)

end App


